import Mathlib

/-!
Verification of `src/quizz.py` (a Tkinter multiple-choice quiz application)
against its natural-language specification.

The embedding below translates the program's data and logic into Lean:

* `Question`, `QUESTIONS` — the fixed in-memory question list (lines 20-46).
* `calculate_score` — the scoring loop (lines 179-184).
* `Json`, `FileState`, `load_scores`, `save_score` — the leaderboard
  persistence (lines 48-68).  The file system is modelled as a `FileState`
  (absent / unparsable / parsed JSON value); Python's `json` module is
  modelled at the level of JSON values, with `encodeRecord`/`decodeRecord`
  embedding the record schema `{"name": ..., "score": ..., "total": ...}`
  that the program writes and reads.  Only integer JSON numbers are
  modelled, which covers every value the program stores.
* `QuizState` and the handlers `save_current_answer`, `next_question`,
  `prev_question`, `select_answer`, `submit_quiz` — the stateful part of
  `QuizApp` (lines 71-212), with the Tk `IntVar` `self.selected` made an
  explicit field (`-1` meaning "no option selected", as in line 102), and
  the dialog answers (message boxes, name prompt) passed as arguments.
* `pct` — the percentage `round(score/total * 100, 1)` of line 194,
  modelled with exact rational arithmetic; Python's `round` rounds to the
  nearest multiple of 1/10 with ties going to the even tenth
  (banker's rounding), embedded as `roundHalfEven`.
-/

namespace Quizz

/-- A question record, `{'q': ..., 'options': [...], 'a': correct_index}`
(lines 19-46 of the source). -/
structure Question where
  q : String
  options : List String
  a : ℕ
deriving DecidableEq, Inhabited

/-- The five embedded sample questions (lines 20-46). -/
def QUESTIONS : List Question :=
  [ { q := "What is the output of print(2 + 3 * 4)?",
      options := ["20", "14", "24", "10"], a := 1 },
    { q := "Which HTML tag is used for a paragraph?",
      options := ["<p>", "<div>", "<span>", "<h1>"], a := 0 },
    { q := "Which data structure uses LIFO?",
      options := ["Queue", "Stack", "Array", "Graph"], a := 1 },
    { q := "Which keyword defines a function in Python?",
      options := ["function", "fn", "def", "fun"], a := 2 },
    { q := "CSS stands for?",
      options := ["Cascading Style Sheets", "Computer Style Sheet",
                  "Creative Styling Syntax", "Colorful Style Sheets"], a := 0 } ]

/-- The scoring loop of `calculate_score` (lines 179-184): one point for
every index whose recorded answer is not `None` and equals the question's
correct index.  `answers[i] is not None and answers[i] == q['a']` is exactly
`a = some q.a` on the `Option ℕ` model of an answer cell. -/
def calculate_score (questions : List Question) (answers : List (Option ℕ)) : ℕ :=
  (questions.zip answers).countP (fun p => decide (p.2 = some p.1.a))

/-- A leaderboard entry `{"name": ..., "score": ..., "total": ...}`
(line 62).  Scores are Python integers, embedded as `ℤ`. -/
structure ScoreRecord where
  name : String
  score : ℤ
  total : ℤ
deriving DecidableEq, Inhabited

/-- JSON values, as produced and consumed by `json.load`/`json.dump`.
Only integer numbers are modelled (the program stores only integers). -/
inductive Json where
  | null
  | bool (b : Bool)
  | num (n : ℤ)
  | str (s : String)
  | arr (elts : List Json)
  | obj (fields : List (String × Json))

/-- Key lookup in a JSON object, the embedding of `s['name']` etc. -/
def Json.lookup (fields : List (String × Json)) (k : String) : Option Json :=
  match fields with
  | [] => none
  | (k', v) :: rest => if k' = k then some v else Json.lookup rest k

/-- The JSON object written for one record (line 62). -/
def encodeRecord (r : ScoreRecord) : Json :=
  Json.obj [("name", Json.str r.name), ("score", Json.num r.score),
            ("total", Json.num r.total)]

/-- The JSON array `json.dump` writes for a leaderboard (line 68). -/
def encodeScores (lb : List ScoreRecord) : Json :=
  Json.arr (lb.map encodeRecord)

/-- Reading one record back out of a JSON value: the field accesses
`s['name']`, `s['score']`, `s['total']` performed by `save_score` and
`show_high_scores`; `none` models the `KeyError`/`TypeError` that Python
raises on a value without the expected shape. -/
def decodeRecord (j : Json) : Option ScoreRecord :=
  match j with
  | Json.obj fields =>
    match Json.lookup fields "name", Json.lookup fields "score",
          Json.lookup fields "total" with
    | some (Json.str n), some (Json.num s), some (Json.num t) =>
        some { name := n, score := s, total := t }
    | _, _, _ => none
  | _ => none

/-- Decoding a list of JSON values into records, failing if any fails. -/
def decodeRecords : List Json → Option (List ScoreRecord)
  | [] => some []
  | j :: js =>
    match decodeRecord j, decodeRecords js with
    | some r, some rs => some (r :: rs)
    | _, _ => none

/-- Decoding a whole stored leaderboard: a top-level JSON array of records. -/
def decodeScores (j : Json) : Option (List ScoreRecord) :=
  match j with
  | Json.arr elts => decodeRecords elts
  | _ => none

/-- The state of the storage file `scores.json`: missing, present but
unparsable, or present with a parsed JSON value. -/
inductive FileState where
  | absent
  | corrupt
  | stored (content : Json)

/-- `load_scores` (lines 51-58): `[]` when the file does not exist, the
parsed JSON value when it parses, and `[]` when parsing raises (the blanket
`except Exception` on line 57).  The function is total: it never raises. -/
def load_scores : FileState → Json
  | FileState.absent => Json.arr []
  | FileState.corrupt => Json.arr []
  | FileState.stored j => j

/-- The write step of `save_score` (lines 67-68): `json.dump` replaces the
file's entire content with the encoded sequence. -/
def writeScores (lb : List ScoreRecord) : FileState :=
  FileState.stored (encodeScores lb)

/-- The sort order given by the key `lambda s: (-s['score'], -s['total'])`
on line 64: ascending in the key means descending by score, then by total. -/
def scoreLe (x y : ScoreRecord) : Prop :=
  y.score < x.score ∨ (x.score = y.score ∧ y.total ≤ x.total)

instance : DecidableRel scoreLe := fun x y => by
  unfold scoreLe
  exact inferInstance

instance : IsTotal ScoreRecord scoreLe :=
  ⟨by intro a b; unfold scoreLe; omega⟩

instance : IsTrans ScoreRecord scoreLe :=
  ⟨by intro a b c hab hbc; unfold scoreLe at hab hbc ⊢; omega⟩

/-- Python's `sorted` with the key of line 64.  `sorted` is a stable sort,
and a stable sort is determined extensionally by its order and stability;
`List.insertionSort` (which inserts each earlier element in front of its
equals among the later ones) has both properties, proved below. -/
def sortScores (l : List ScoreRecord) : List ScoreRecord :=
  l.insertionSort scoreLe

/-- The pure core of `save_score` (lines 60-68): append the new record,
re-sort, keep the top 10. -/
def save_pure (scores : List ScoreRecord) (name : String) (score total : ℤ) :
    List ScoreRecord :=
  (sortScores (scores ++ [{ name := name, score := score, total := total }])).take 10

/-- `save_score` (lines 60-68) on the file model: load, decode the records
it manipulates, append, sort, truncate, rewrite the file.  `none` models the
exception Python would raise if the stored JSON does not have the record
shape the sort key accesses. -/
def save_score (fs : FileState) (name : String) (score total : ℤ) :
    Option FileState :=
  (decodeScores (load_scores fs)).map
    (fun scores => writeScores (save_pure scores name score total))

/-- Rounding a rational to the nearest integer with ties to the even
integer: the behaviour of Python's `round` (banker's rounding). -/
def roundHalfEven (q : ℚ) : ℤ :=
  if q - ⌊q⌋ < 1/2 then ⌊q⌋
  else if 1/2 < q - ⌊q⌋ then ⌊q⌋ + 1
  else if ⌊q⌋ % 2 = 0 then ⌊q⌋ else ⌊q⌋ + 1

/-- `pct = round(score/total * 100, 1)` (line 194), modelled with exact
rational arithmetic: Python rounds to one decimal with ties to the even
tenth.  (Python computes in binary floating point; at every input used in
the theorems below the float computation either is exact or is far from a
tie, so the exact-rational model agrees with it.) -/
def pct (score total : ℕ) : ℚ :=
  (roundHalfEven ((score : ℚ) / (total : ℚ) * 100 * 10) : ℚ) / 10

/-- Rounding to one decimal place half-up, as the specification's words
describe the rounding; stated only to be compared against `pct`. -/
def roundHalfUp1 (x : ℚ) : ℚ :=
  ((⌊x * 10 + 1/2⌋ : ℤ) : ℚ) / 10

/-- Python's `str.strip()`: drop whitespace from both ends (line 201). -/
def pyStrip (s : String) : String :=
  ⟨((s.data.dropWhile Char.isWhitespace).reverse.dropWhile
      Char.isWhitespace).reverse⟩

/-- Python's `[:20]` slice on a string (line 201). -/
def pyTruncate20 (s : String) : String :=
  ⟨s.data.take 20⟩

/-- The mutable state of `QuizApp` (lines 78-82 plus the `IntVar` of line
102): the question list, `self.current`, `self.answers` (`None` =
unanswered), and `self.selected` (`-1` = no radio button selected). -/
structure QuizState where
  questions : List Question
  current : ℕ
  answers : List (Option ℕ)
  selected : ℤ
deriving DecidableEq

/-- The state after `__init__` and the initial `load_question` (lines
78-82, 102, 134): index 0, all answers `None`, no selection. -/
def quizInit (qs : List Question) : QuizState :=
  { questions := qs, current := 0,
    answers := List.replicate qs.length none, selected := -1 }

/-- `save_current_answer` (lines 158-161): write the selected value into
`answers[current]` only when a selection was made (`val >= 0`). -/
def save_current_answer (st : QuizState) : QuizState :=
  if 0 ≤ st.selected then
    { st with answers := st.answers.set st.current (some st.selected.toNat) }
  else st

/-- The value `load_question` (lines 151-152) puts into the selection
variable: the recorded answer at position `i`, or `-1` when unanswered. -/
def selValue (answers : List (Option ℕ)) (i : ℕ) : ℤ :=
  match answers.getD i none with
  | some v => (v : ℤ)
  | none => -1

/-- The state effect of `load_question` (lines 139-156): only the selection
variable changes (the rest is widget redrawing). -/
def load_question (st : QuizState) : QuizState :=
  { st with selected := selValue st.answers st.current }

/-- `next_question` (lines 163-171): persist the pending selection, advance
when not at the last question.  The `Bool` is `true` when the handler
instead reached the end and showed the submit prompt; the prompt and the
possible call into `submit_quiz` change neither `current` nor `answers`
(the second `save_current_answer` rewrites the same value). -/
def next_question (st : QuizState) : QuizState × Bool :=
  let st1 := save_current_answer st
  if st1.current < st1.questions.length - 1 then
    (load_question { st1 with current := st1.current + 1 }, false)
  else
    (st1, true)

/-- `prev_question` (lines 173-177): persist the pending selection, go back
one question when not at the first. -/
def prev_question (st : QuizState) : QuizState :=
  let st1 := save_current_answer st
  if 0 < st1.current then
    load_question { st1 with current := st1.current - 1 }
  else st1

/-- Clicking a radio button: the Tk variable is set to the option's value;
nothing else changes until the selection is persisted. -/
def select_answer (st : QuizState) (i : ℕ) : QuizState :=
  { st with selected := (i : ℤ) }

/-- `all(a is None for a in self.answers)` (line 189). -/
def allUnanswered (answers : List (Option ℕ)) : Bool :=
  answers.all (fun a => a.isNone)

/-- The observable outcome of one run of `submit_quiz`. -/
structure SubmitOutcome where
  state : QuizState
  askedNoAnswers : Bool
  submitted : Bool
  result : Option (ℕ × ℚ)
  savedRecord : Option ScoreRecord
deriving DecidableEq

/-- `submit_quiz` (lines 186-205).  `confirmEmptySubmit` is the user's
answer to the "You haven't answered any questions. Submit anyway?" box,
`wantSave` the answer to "Do you want to save your score?", and `nameInput`
the result of the name dialog (`none` = cancelled).  Line 200's `if name:`
skips the save for `None` or the empty string; otherwise the name is
stripped and cut to 20 characters (line 201) and the record saved. -/
def submit_quiz (st : QuizState) (confirmEmptySubmit wantSave : Bool)
    (nameInput : Option String) : SubmitOutcome :=
  let st1 := save_current_answer st
  let empty := allUnanswered st1.answers
  if empty && !confirmEmptySubmit then
    { state := st1, askedNoAnswers := true, submitted := false,
      result := none, savedRecord := none }
  else
    let score := calculate_score st1.questions st1.answers
    let total := st1.questions.length
    let saved : Option ScoreRecord :=
      if wantSave then
        match nameInput with
        | some nm =>
          if nm = "" then none
          else some { name := pyTruncate20 (pyStrip nm),
                      score := (score : ℤ), total := (total : ℤ) }
        | none => none
      else none
    { state := st1, askedNoAnswers := empty, submitted := true,
      result := some (score, pct score total), savedRecord := saved }

/-! ## Helper lemmas -/

theorem save_current_answer_questions (st : QuizState) :
    (save_current_answer st).questions = st.questions := by
  unfold save_current_answer
  split <;> rfl

theorem save_current_answer_current (st : QuizState) :
    (save_current_answer st).current = st.current := by
  unfold save_current_answer
  split <;> rfl

theorem save_current_answer_of_neg (st : QuizState) (h : st.selected < 0) :
    save_current_answer st = st := by
  unfold save_current_answer
  rw [if_neg (by omega)]

theorem next_question_answers (st : QuizState) :
    (next_question st).1.answers = (save_current_answer st).answers := by
  simp only [next_question, load_question]
  split <;> rfl

theorem prev_question_answers (st : QuizState) :
    (prev_question st).answers = (save_current_answer st).answers := by
  simp only [prev_question, load_question]
  split <;> rfl

theorem submit_quiz_state (st : QuizState) (c w : Bool) (nm : Option String) :
    (submit_quiz st c w nm).state = save_current_answer st := by
  simp only [submit_quiz]
  split <;> rfl

theorem decodeRecord_encodeRecord (r : ScoreRecord) :
    decodeRecord (encodeRecord r) = some r := rfl

theorem decodeRecords_map_encodeRecord (lb : List ScoreRecord) :
    decodeRecords (lb.map encodeRecord) = some lb := by
  induction lb with
  | nil => rfl
  | cons r rs ih => simp [decodeRecords, decodeRecord_encodeRecord, ih]

/-! ## C1: scoring -/

/-- C1: for any list of questions and any answers list of the same length,
`calculate_score` returns the number of indices whose recorded answer equals
the question's correct index (so unanswered `none` entries never count), and
the score is at most the number of questions. -/
theorem calculate_score_spec (qs : List Question) (ans : List (Option ℕ))
    (h : ans.length = qs.length) :
    calculate_score qs ans
      = (List.range qs.length).countP
          (fun i => decide (ans.getD i none = some ((qs.getD i default).a)))
    ∧ calculate_score qs ans ≤ qs.length := by
  constructor
  · induction qs generalizing ans with
    | nil => simp [calculate_score]
    | cons q qs ih =>
      cases ans with
      | nil => simp at h
      | cons a as =>
        simp only [List.length_cons, Nat.add_right_cancel_iff] at h
        have ihh := ih as h
        simp only [calculate_score, List.zip_cons_cons, List.countP_cons,
          List.length_cons, List.range_succ_eq_map, List.countP_map,
          Function.comp_def, List.getD_cons_succ, List.getD_cons_zero] at ihh ⊢
        rw [ihh]
  · have h1 : calculate_score qs ans ≤ (qs.zip ans).length := by
      unfold calculate_score
      exact List.countP_le_length _
    have h2 : (qs.zip ans).length ≤ qs.length := by
      rw [List.length_zip]
      omega
    omega

/-- Witness for C1, the spec's own example: answers `[1, unanswered, 2]`
against correct indices `[1, 0, 2]` score exactly 2 points. -/
theorem calculate_score_spec_witness :
    (calculate_score
        [⟨"a", [], 1⟩, ⟨"b", [], 0⟩, ⟨"c", [], 2⟩] [some 1, none, some 2]
      = (List.range 3).countP
          (fun i => decide (([some 1, none, some 2].getD i none)
            = some ((([⟨"a", [], 1⟩, ⟨"b", [], 0⟩, ⟨"c", [], 2⟩]
                : List Question).getD i default).a)))
     ∧ calculate_score
        [⟨"a", [], 1⟩, ⟨"b", [], 0⟩, ⟨"c", [], 2⟩] [some 1, none, some 2] ≤ 3)
    ∧ calculate_score
        [⟨"a", [], 1⟩, ⟨"b", [], 0⟩, ⟨"c", [], 2⟩] [some 1, none, some 2] = 2 :=
  ⟨calculate_score_spec _ _ (by decide), by decide⟩

/-! ## C3: loading the leaderboard -/

/-- C3: `load_scores` is a total function (it never raises): it returns the
stored content when the file exists and parses, and the empty sequence both
when the file is absent and when its content is unparsable; the empty
sequence decodes to the empty leaderboard. -/
theorem load_scores_spec :
    load_scores FileState.absent = Json.arr []
    ∧ load_scores FileState.corrupt = Json.arr []
    ∧ (∀ j : Json, load_scores (FileState.stored j) = j)
    ∧ decodeScores (Json.arr []) = some [] :=
  ⟨rfl, rfl, fun _ => rfl, rfl⟩

/-! ## C7: round trip -/

/-- C7: writing a leaderboard of at most 10 records to the file and loading
it back yields the same sequence of records, in the same order. -/
theorem leaderboard_roundtrip (lb : List ScoreRecord) (_h : lb.length ≤ 10) :
    decodeScores (load_scores (writeScores lb)) = some lb := by
  simp [writeScores, load_scores, encodeScores, decodeScores,
    decodeRecords_map_encodeRecord]

/-- Witness for C7 at a concrete two-record leaderboard. -/
theorem leaderboard_roundtrip_witness :
    decodeScores (load_scores (writeScores
        [⟨"alice", 4, 5⟩, ⟨"bob", 3, 5⟩]))
      = some [⟨"alice", 4, 5⟩, ⟨"bob", 3, 5⟩] :=
  leaderboard_roundtrip _ (by decide)

/-! ## C6: navigation at the boundaries -/

/-- C6: `next_question` invoked at the last index leaves `current`
unchanged (it only signals the end-of-quiz prompt), and `prev_question`
invoked at index 0 leaves `current` unchanged; in both cases the pending
selection has been persisted into the answers list before the boundary
check. -/
theorem nav_boundary_spec (st st' : QuizState)
    (hlast : st.current = st.questions.length - 1) (hfirst : st'.current = 0) :
    (next_question st).1.current = st.current
    ∧ (next_question st).1.answers = (save_current_answer st).answers
    ∧ (next_question st).2 = true
    ∧ (prev_question st').current = 0
    ∧ (prev_question st').answers = (save_current_answer st').answers := by
  have hc := save_current_answer_current st
  have hq := save_current_answer_questions st
  have hc' := save_current_answer_current st'
  simp only [next_question, prev_question, load_question]
  rw [hc, hq, hlast, hc', hfirst]
  rw [if_neg (lt_irrefl _), if_neg (lt_irrefl _)]
  exact ⟨hc.trans hlast, rfl, rfl, hc'.trans hfirst, rfl⟩

/-- Witness for C6: a session at the last of the five questions with a
pending selection, and a session at the first question. -/
theorem nav_boundary_spec_witness :
    (next_question ⟨QUESTIONS, 4, List.replicate 5 none, 2⟩).1.current = 4
    ∧ (next_question ⟨QUESTIONS, 4, List.replicate 5 none, 2⟩).1.answers
        = (save_current_answer ⟨QUESTIONS, 4, List.replicate 5 none, 2⟩).answers
    ∧ (next_question ⟨QUESTIONS, 4, List.replicate 5 none, 2⟩).2 = true
    ∧ (prev_question ⟨QUESTIONS, 0, List.replicate 5 none, 1⟩).current = 0
    ∧ (prev_question ⟨QUESTIONS, 0, List.replicate 5 none, 1⟩).answers
        = (save_current_answer ⟨QUESTIONS, 0, List.replicate 5 none, 1⟩).answers :=
  nav_boundary_spec _ _ (by decide) (by decide)

/-! ## C8: the index invariant -/

/-- C8: with at least one question, `current` starts at 0, and each of the
operations keeps `0 ≤ current < N` (the lower bound holds by the `ℕ`
type). -/
theorem current_index_invariant (qs : List Question) (st : QuizState)
    (i : ℕ) (c w : Bool) (nm : Option String)
    (hN : 0 < qs.length) (hst : st.current < st.questions.length) :
    (quizInit qs).current < (quizInit qs).questions.length
    ∧ (next_question st).1.current < (next_question st).1.questions.length
    ∧ (prev_question st).current < (prev_question st).questions.length
    ∧ (select_answer st i).current < (select_answer st i).questions.length
    ∧ (save_current_answer st).current < (save_current_answer st).questions.length
    ∧ (submit_quiz st c w nm).state.current
        < (submit_quiz st c w nm).state.questions.length := by
  have hc := save_current_answer_current st
  have hq := save_current_answer_questions st
  refine ⟨hN, ?_, ?_, hst, ?_, ?_⟩
  · simp only [next_question, load_question]
    split
    · next hcond =>
      rw [hc, hq] at hcond
      simp only [hc, hq]
      omega
    · rw [hc, hq]
      exact hst
  · simp only [prev_question, load_question]
    split
    · next hcond =>
      rw [hc] at hcond
      simp only [hc, hq]
      omega
    · rw [hc, hq]
      exact hst
  · rw [hc, hq]
    exact hst
  · rw [submit_quiz_state, hc, hq]
    exact hst

/-- Witness for C8 at a concrete mid-quiz state. -/
theorem current_index_invariant_witness :
    (quizInit QUESTIONS).current < (quizInit QUESTIONS).questions.length
    ∧ (next_question ⟨QUESTIONS, 2, List.replicate 5 none, 1⟩).1.current
        < (next_question ⟨QUESTIONS, 2, List.replicate 5 none, 1⟩).1.questions.length
    ∧ (prev_question ⟨QUESTIONS, 2, List.replicate 5 none, 1⟩).current
        < (prev_question ⟨QUESTIONS, 2, List.replicate 5 none, 1⟩).questions.length
    ∧ (select_answer ⟨QUESTIONS, 2, List.replicate 5 none, 1⟩ 3).current
        < (select_answer ⟨QUESTIONS, 2, List.replicate 5 none, 1⟩ 3).questions.length
    ∧ (save_current_answer ⟨QUESTIONS, 2, List.replicate 5 none, 1⟩).current
        < (save_current_answer ⟨QUESTIONS, 2, List.replicate 5 none, 1⟩).questions.length
    ∧ (submit_quiz ⟨QUESTIONS, 2, List.replicate 5 none, 1⟩ true false none).state.current
        < (submit_quiz ⟨QUESTIONS, 2, List.replicate 5 none, 1⟩
            true false none).state.questions.length :=
  current_index_invariant QUESTIONS _ 3 true false none (by decide) (by decide)

/-! ## C9: submitting with no answers -/

/-- C9, corrected part: in the code state where every entry of `answers` is
unanswered but an option is selected on the current question (a reachable
state: select an option, then press Submit), `submit_quiz` persists the
pending selection first, asks no confirmation, and proceeds — refuting the
claim read over the `answers` mapping alone. -/
theorem submit_empty_confirmation_counterexample :
    allUnanswered (QuizState.mk QUESTIONS 0 (List.replicate 5 none) 0).answers = true
    ∧ (submit_quiz (QuizState.mk QUESTIONS 0 (List.replicate 5 none) 0)
        false false none).askedNoAnswers = false
    ∧ (submit_quiz (QuizState.mk QUESTIONS 0 (List.replicate 5 none) 0)
        false false none).submitted = true := by
  refine ⟨by decide, ?_, ?_⟩ <;> decide

/-- C9, amended: if every question is unanswered and no selection is
pending, Submit asks for confirmation; declining aborts the submission with
the session state unchanged, no score shown and nothing persisted, while
confirming proceeds normally (the prompt is still recorded as asked). -/
theorem submit_empty_confirmation_spec (st : QuizState) (w : Bool)
    (nm : Option String)
    (hall : allUnanswered st.answers = true) (hsel : st.selected < 0) :
    (submit_quiz st false w nm).askedNoAnswers = true
    ∧ (submit_quiz st false w nm).submitted = false
    ∧ (submit_quiz st false w nm).state = st
    ∧ (submit_quiz st false w nm).result = none
    ∧ (submit_quiz st false w nm).savedRecord = none
    ∧ (submit_quiz st true w nm).askedNoAnswers = true
    ∧ (submit_quiz st true w nm).submitted = true := by
  have h0 := save_current_answer_of_neg st hsel
  simp [submit_quiz, h0, hall]

/-- Witness for C9 (amended) at the freshly initialised session. -/
theorem submit_empty_confirmation_spec_witness :
    (submit_quiz (quizInit QUESTIONS) false true (some "zoe")).askedNoAnswers = true
    ∧ (submit_quiz (quizInit QUESTIONS) false true (some "zoe")).submitted = false
    ∧ (submit_quiz (quizInit QUESTIONS) false true (some "zoe")).state
        = quizInit QUESTIONS
    ∧ (submit_quiz (quizInit QUESTIONS) false true (some "zoe")).result = none
    ∧ (submit_quiz (quizInit QUESTIONS) false true (some "zoe")).savedRecord = none
    ∧ (submit_quiz (quizInit QUESTIONS) true true (some "zoe")).askedNoAnswers = true
    ∧ (submit_quiz (quizInit QUESTIONS) true true (some "zoe")).submitted = true :=
  submit_empty_confirmation_spec _ true (some "zoe") (by decide) (by decide)

/-! ## C5: saving the score record -/

/-- C5, corrected part: a whitespace-only name is truthy in Python, so line
200's `if name:` passes and a record whose name strips to the empty string
is persisted — refuting the claim that a whitespace-only name skips the
save. -/
theorem submit_whitespace_name_counterexample :
    pyStrip " " = ""
    ∧ (submit_quiz (QuizState.mk QUESTIONS 0
          [some 1, none, none, none, none] (-1)) true true
        (some " ")).savedRecord = some (ScoreRecord.mk "" 1 5) := by
  refine ⟨rfl, ?_⟩
  decide

/-- C5, amended: a record is persisted if and only if the submission went
through, the user asked to save, and the supplied name is non-empty (before
trimming); the persisted name is the supplied name trimmed of surrounding
whitespace and capped at 20 characters — possibly empty when the name was
whitespace-only. -/
theorem submit_save_name_spec (st : QuizState) (ce w : Bool)
    (nm : Option String) :
    ((submit_quiz st ce w nm).savedRecord ≠ none
       ↔ (submit_quiz st ce w nm).submitted = true ∧ w = true
           ∧ ∃ s, nm = some s ∧ s ≠ "")
    ∧ (∀ r, (submit_quiz st ce w nm).savedRecord = some r →
         ∃ s, nm = some s ∧ s ≠ ""
           ∧ r.name = pyTruncate20 (pyStrip s) ∧ r.name.length ≤ 20) := by
  have hlen : ∀ s : String, (pyTruncate20 s).length ≤ 20 := by
    intro s
    show (s.data.take 20).length ≤ 20
    exact List.length_take_le 20 _
  constructor
  · simp only [submit_quiz]
    split
    · simp
    · cases w with
      | false => simp
      | true =>
        cases nm with
        | none => simp
        | some s =>
          by_cases hs : s = ""
          · simp [hs]
          · simp [hs]
  · simp only [submit_quiz]
    split
    · simp
    · cases w with
      | false => simp
      | true =>
        cases nm with
        | none => simp
        | some s =>
          by_cases hs : s = ""
          · simp [hs]
          · intro r hr
            dsimp only at hr
            rw [if_neg hs] at hr
            have h2 := Option.some.inj hr
            subst h2
            exact ⟨s, rfl, hs, rfl, hlen _⟩

/-- Witness for C5 (amended) at a concrete submission with a padded name. -/
theorem submit_save_name_spec_witness :
    ((submit_quiz (quizInit QUESTIONS) true true (some " Alice ")).savedRecord ≠ none
       ↔ (submit_quiz (quizInit QUESTIONS) true true
            (some " Alice ")).submitted = true ∧ true = true
           ∧ ∃ s, (some " Alice " : Option String) = some s ∧ s ≠ "")
    ∧ (∀ r, (submit_quiz (quizInit QUESTIONS) true true
          (some " Alice ")).savedRecord = some r →
         ∃ s, (some " Alice " : Option String) = some s ∧ s ≠ ""
           ∧ r.name = pyTruncate20 (pyStrip s) ∧ r.name.length ≤ 20) :=
  submit_save_name_spec (quizInit QUESTIONS) true true (some " Alice ")

/-! ## C10: recorded answers are never erased -/

/-- C10: `save_current_answer` writes only when an option is selected
(`selected ≥ 0`) and leaves the answers untouched otherwise; consequently a
recorded answer is never reset to unanswered by persisting, navigating, or
submitting (it can only be overwritten by another selected option). -/
theorem answer_persistence_spec (st : QuizState) (i v : ℕ) (c w : Bool)
    (nm : Option String) (hrec : st.answers.getD i none = some v) :
    (st.selected < 0 → save_current_answer st = st)
    ∧ (0 ≤ st.selected →
        (save_current_answer st).answers
          = st.answers.set st.current (some st.selected.toNat))
    ∧ (∃ u, (save_current_answer st).answers.getD i none = some u)
    ∧ (∃ u, (next_question st).1.answers.getD i none = some u)
    ∧ (∃ u, (prev_question st).answers.getD i none = some u)
    ∧ (∃ u, (submit_quiz st c w nm).state.answers.getD i none = some u) := by
  have hkey : ∃ u, (save_current_answer st).answers.getD i none = some u := by
    unfold save_current_answer
    split
    · simp only [List.getD_eq_getElem?_getD] at hrec ⊢
      by_cases hij : st.current = i
      · subst hij
        have hlt : st.current < st.answers.length := by
          by_contra hge
          rw [List.getElem?_eq_none (by omega)] at hrec
          simp at hrec
        rw [List.getElem?_set_self (by simpa using hlt)]
        exact ⟨st.selected.toNat, rfl⟩
      · rw [List.getElem?_set_ne hij]
        exact ⟨v, hrec⟩
    · exact ⟨v, hrec⟩
  refine ⟨save_current_answer_of_neg st, ?_, hkey, ?_, ?_, ?_⟩
  · intro hpos
    unfold save_current_answer
    rw [if_pos hpos]
  · rw [next_question_answers]
    exact hkey
  · rw [prev_question_answers]
    exact hkey
  · rw [submit_quiz_state]
    exact hkey

/-- Witness for C10: question 0 already answered, nothing selected. -/
theorem answer_persistence_spec_witness :
    (((QuizState.mk QUESTIONS 1 [some 1, none, none, none, none] (-1)).selected < 0 →
        save_current_answer (QuizState.mk QUESTIONS 1
          [some 1, none, none, none, none] (-1))
          = QuizState.mk QUESTIONS 1 [some 1, none, none, none, none] (-1))
    ∧ (0 ≤ (QuizState.mk QUESTIONS 1 [some 1, none, none, none, none] (-1)).selected →
        (save_current_answer (QuizState.mk QUESTIONS 1
            [some 1, none, none, none, none] (-1))).answers
          = [some 1, none, none, none, none].set 1
              (some (QuizState.mk QUESTIONS 1
                [some 1, none, none, none, none] (-1)).selected.toNat))
    ∧ (∃ u, (save_current_answer (QuizState.mk QUESTIONS 1
          [some 1, none, none, none, none] (-1))).answers.getD 0 none = some u)
    ∧ (∃ u, (next_question (QuizState.mk QUESTIONS 1
          [some 1, none, none, none, none] (-1))).1.answers.getD 0 none = some u)
    ∧ (∃ u, (prev_question (QuizState.mk QUESTIONS 1
          [some 1, none, none, none, none] (-1))).answers.getD 0 none = some u)
    ∧ (∃ u, (submit_quiz (QuizState.mk QUESTIONS 1
          [some 1, none, none, none, none] (-1)) true false none).state.answers.getD 0 none
            = some u)) :=
  answer_persistence_spec _ 0 1 true false none (by decide)

/-! ## C4: the displayed percentage -/

theorem roundHalfEven_sub_le (q : ℚ) : |(roundHalfEven q : ℚ) - q| ≤ 1/2 := by
  have h1 := Int.floor_le q
  have h2 := Int.lt_floor_add_one q
  unfold roundHalfEven
  split_ifs with ha hb hc <;> rw [abs_le] <;> push_cast <;>
    constructor <;> linarith

theorem roundHalfEven_eq_of_lt {q : ℚ} {n : ℤ} (hf : ⌊q⌋ = n)
    (h : q - n < 1/2) : roundHalfEven q = n := by
  unfold roundHalfEven
  rw [hf, if_pos h]

theorem roundHalfEven_eq_of_gt {q : ℚ} {n : ℤ} (hf : ⌊q⌋ = n)
    (h : 1/2 < q - n) : roundHalfEven q = n + 1 := by
  unfold roundHalfEven
  rw [hf, if_neg (by linarith), if_pos h]

theorem roundHalfEven_eq_of_tie {q : ℚ} {n : ℤ} (hf : ⌊q⌋ = n)
    (h : q - n = 1/2) (he : n % 2 = 0) : roundHalfEven q = n := by
  unfold roundHalfEven
  rw [hf, if_neg (by linarith), if_neg (by linarith), if_pos he]

theorem pct_1_3 : pct 1 3 = 333/10 := by
  have he : ((1 : ℕ) : ℚ) / ((3 : ℕ) : ℚ) * 100 * 10 = 1000/3 := by norm_num
  have hf : ⌊(1000/3 : ℚ)⌋ = 333 := by
    rw [Int.floor_eq_iff]
    norm_num
  unfold pct
  rw [he, roundHalfEven_eq_of_lt hf (by norm_num)]
  norm_num

theorem pct_2_3 : pct 2 3 = 667/10 := by
  have he : ((2 : ℕ) : ℚ) / ((3 : ℕ) : ℚ) * 100 * 10 = 2000/3 := by norm_num
  have hf : ⌊(2000/3 : ℚ)⌋ = 666 := by
    rw [Int.floor_eq_iff]
    norm_num
  unfold pct
  rw [he, roundHalfEven_eq_of_gt hf (by norm_num)]
  norm_num

theorem pct_5_5 : pct 5 5 = 100 := by
  have he : ((5 : ℕ) : ℚ) / ((5 : ℕ) : ℚ) * 100 * 10 = 1000 := by norm_num
  have hf : ⌊(1000 : ℚ)⌋ = 1000 := by
    rw [Int.floor_eq_iff]
    norm_num
  unfold pct
  rw [he, roundHalfEven_eq_of_lt hf (by norm_num)]
  norm_num

theorem pct_1_16 : pct 1 16 = 31/5 := by
  have he : ((1 : ℕ) : ℚ) / ((16 : ℕ) : ℚ) * 100 * 10 = 125/2 := by norm_num
  have hf : ⌊(125/2 : ℚ)⌋ = 62 := by
    rw [Int.floor_eq_iff]
    norm_num
  unfold pct
  rw [he, roundHalfEven_eq_of_tie hf (by norm_num) (by decide)]
  norm_num

/-- C4, corrected part: at score 1 out of 16 the exact value is 6.25%, a
tie, and Python's `round` returns the even tenth 6.2 while rounding half-up
would give 6.3 — refuting "rounding is half-up" as a general rule.  (At
this input the binary floating-point computation is exact: 1/16 and 6.25
are dyadic, so the float code and the rational model agree.) -/
theorem pct_half_up_counterexample :
    pct 1 16 = 31/5
    ∧ roundHalfUp1 ((1 : ℚ) / 16 * 100) = 63/10
    ∧ pct 1 16 ≠ roundHalfUp1 ((1 : ℚ) / 16 * 100) := by
  have h1 : pct 1 16 = 31/5 := pct_1_16
  have h2 : roundHalfUp1 ((1 : ℚ) / 16 * 100) = 63/10 := by
    unfold roundHalfUp1
    rw [show (1 : ℚ) / 16 * 100 * 10 + 1/2 = ((63 : ℤ) : ℚ) by norm_num,
      Int.floor_intCast]
    norm_num
  refine ⟨h1, h2, ?_⟩
  rw [h1, h2]
  norm_num

/-- C4, amended: the displayed percentage is score/total × 100 rounded to
one decimal place with ties to the even tenth (Python's banker's rounding),
hence always within 0.05 of the exact value; the spec's examples
1/3 → 33.3, 2/3 → 66.7 and 5/5 → 100.0 all hold (none of them is a tie),
but 1/16 gives 6.2, not the 6.3 half-up rounding would produce. -/
theorem pct_spec (score total : ℕ) (_h : 0 < total) :
    |pct score total - (score : ℚ) / (total : ℚ) * 100| ≤ 1/20
    ∧ pct 1 3 = 333/10 ∧ pct 2 3 = 667/10 ∧ pct 5 5 = 100
    ∧ pct 1 16 = 31/5 := by
  refine ⟨?_, pct_1_3, pct_2_3, pct_5_5, pct_1_16⟩
  have hb := roundHalfEven_sub_le ((score : ℚ) / (total : ℚ) * 100 * 10)
  rw [abs_le] at hb
  unfold pct
  rw [abs_le]
  constructor <;> linarith [hb.1, hb.2]

/-- Witness for C4 (amended) at score 2 of 3. -/
theorem pct_spec_witness :
    |pct 2 3 - ((2 : ℕ) : ℚ) / ((3 : ℕ) : ℚ) * 100| ≤ 1/20
    ∧ pct 1 3 = 333/10 ∧ pct 2 3 = 667/10 ∧ pct 5 5 = 100
    ∧ pct 1 16 = 31/5 :=
  pct_spec 2 3 (by decide)

/-! ## C2: saving a score -/

theorem filter_orderedInsert_pos (p : ScoreRecord → Bool) (x : ScoreRecord)
    (L : List ScoreRecord) (hxp : p x = true)
    (himp : ∀ b : ScoreRecord, p b = true → scoreLe x b) :
    (L.orderedInsert scoreLe x).filter p = x :: L.filter p := by
  induction L with
  | nil => simp [List.orderedInsert, hxp]
  | cons b L ih =>
    rw [List.orderedInsert]
    split_ifs with hle
    · rw [List.filter_cons_of_pos hxp]
    · have hpb : p b = false := by
        cases hpbv : p b
        · rfl
        · exact absurd (himp b hpbv) hle
      rw [List.filter_cons_of_neg (by simp [hpb]), ih,
        List.filter_cons_of_neg (by simp [hpb])]

theorem filter_orderedInsert_neg (p : ScoreRecord → Bool) (x : ScoreRecord)
    (L : List ScoreRecord) (hxp : p x = false) :
    (L.orderedInsert scoreLe x).filter p = L.filter p := by
  induction L with
  | nil => simp [List.orderedInsert, hxp]
  | cons b L ih =>
    rw [List.orderedInsert]
    split_ifs with hle
    · rw [List.filter_cons_of_neg (by simp [hxp])]
    · cases hpb : p b
      · rw [List.filter_cons_of_neg (by simp [hpb]), ih,
          List.filter_cons_of_neg (by simp [hpb])]
      · rw [List.filter_cons_of_pos hpb, ih, List.filter_cons_of_pos hpb]

/-- Python's `sorted` is stable: the records carrying any fixed sort key
appear in the output in their input order. -/
theorem filter_key_insertionSort (s t : ℤ) (l : List ScoreRecord) :
    (List.insertionSort scoreLe l).filter
        (fun r => decide (r.score = s ∧ r.total = t))
      = l.filter (fun r => decide (r.score = s ∧ r.total = t)) := by
  induction l with
  | nil => rfl
  | cons x l ih =>
    simp only [List.insertionSort]
    by_cases hx : x.score = s ∧ x.total = t
    · have hpx : (fun r : ScoreRecord => decide (r.score = s ∧ r.total = t)) x
          = true := by
        simp only [decide_eq_true_eq]
        exact hx
      have himp : ∀ b : ScoreRecord,
          (fun r : ScoreRecord => decide (r.score = s ∧ r.total = t)) b = true →
            scoreLe x b := by
        intro b hpb
        simp only [decide_eq_true_eq] at hpb
        unfold scoreLe
        omega
      rw [filter_orderedInsert_pos _ _ _ hpx himp, ih,
        @List.filter_cons_of_pos _
          (fun r : ScoreRecord => decide (r.score = s ∧ r.total = t)) x l hpx]
    · have hpx : (fun r : ScoreRecord => decide (r.score = s ∧ r.total = t)) x
          = false := by
        simp only [decide_eq_false_iff_not]
        exact hx
      rw [filter_orderedInsert_neg _ _ _ hpx, ih,
        @List.filter_cons_of_neg _
          (fun r : ScoreRecord => decide (r.score = s ∧ r.total = t)) x l
          (by simp [hpx])]

theorem sorted_save_pure (lb : List ScoreRecord) (n : String) (s t : ℤ) :
    List.Sorted scoreLe (save_pure lb n s t) := by
  unfold save_pure sortScores
  exact List.Pairwise.sublist (List.take_sublist 10 _)
    (List.sorted_insertionSort scoreLe _)

theorem save_pure_length (lb : List ScoreRecord) (n : String) (s t : ℤ) :
    (save_pure lb n s t).length = min (lb.length + 1) 10 := by
  unfold save_pure sortScores
  rw [List.length_take, List.length_insertionSort, List.length_append]
  simp
  omega

theorem length_foldl_save_pure (recs : List ScoreRecord) :
    ∀ acc : List ScoreRecord, acc.length ≤ 10 →
      (recs.foldl (fun a r => save_pure a r.name r.score r.total) acc).length
        = min (acc.length + recs.length) 10 := by
  induction recs with
  | nil =>
    intro acc h
    simp only [List.foldl_nil, List.length_nil, Nat.add_zero]
    omega
  | cons r rs ih =>
    intro acc h
    simp only [List.foldl_cons, List.length_cons]
    rw [ih _ (by rw [save_pure_length]; omega), save_pure_length]
    omega

theorem sorted_foldl_save_pure (recs : List ScoreRecord) :
    ∀ acc, List.Sorted scoreLe acc →
      List.Sorted scoreLe
        (recs.foldl (fun a r => save_pure a r.name r.score r.total) acc) := by
  induction recs with
  | nil =>
    intro acc h
    simpa using h
  | cons r rs ih =>
    intro acc _
    simp only [List.foldl_cons]
    exact ih _ (sorted_save_pure _ _ _ _)

/-- C2: `save_score` replaces the stored content with the loaded
leaderboard plus the new record, stably sorted descending by (score, total)
and truncated to 10: the result's length is `min (old + 1) 10`, it is
sorted in the key order, records with equal keys keep their insertion
order, and folding 15 saves from an empty store leaves exactly 10 records
in sorted order. -/
theorem save_score_spec (fs : FileState) (lb : List ScoreRecord)
    (name : String) (score total : ℤ) (recs : List ScoreRecord)
    (hload : decodeScores (load_scores fs) = some lb)
    (h15 : recs.length = 15) :
    save_score fs name score total
        = some (writeScores
            ((sortScores (lb ++ [ScoreRecord.mk name score total])).take 10))
    ∧ (save_pure lb name score total).length = min (lb.length + 1) 10
    ∧ List.Sorted scoreLe (save_pure lb name score total)
    ∧ (∀ s t : ℤ,
        (sortScores (lb ++ [ScoreRecord.mk name score total])).filter
            (fun r => decide (r.score = s ∧ r.total = t))
          = (lb ++ [ScoreRecord.mk name score total]).filter
              (fun r => decide (r.score = s ∧ r.total = t)))
    ∧ (recs.foldl (fun a r => save_pure a r.name r.score r.total) []).length = 10
    ∧ List.Sorted scoreLe
        (recs.foldl (fun a r => save_pure a r.name r.score r.total) []) := by
  refine ⟨?_, save_pure_length lb name score total,
    sorted_save_pure lb name score total,
    fun s t => filter_key_insertionSort s t _, ?_,
    sorted_foldl_save_pure recs [] List.sorted_nil⟩
  · unfold save_score
    rw [hload]
    rfl
  · rw [length_foldl_save_pure recs [] (by simp), h15]
    simp

/-- Witness for C2: saving into an absent store, and 15 saves in a row. -/
theorem save_score_spec_witness :
    (save_score FileState.absent "a" 3 5
        = some (writeScores
            ((sortScores (([] : List ScoreRecord) ++ [ScoreRecord.mk "a" 3 5])).take 10))
    ∧ (save_pure [] "a" 3 5).length
        = min ((List.length ([] : List ScoreRecord)) + 1) 10
    ∧ List.Sorted scoreLe (save_pure [] "a" 3 5)
    ∧ (∀ s t : ℤ,
        (sortScores (([] : List ScoreRecord) ++ [ScoreRecord.mk "a" 3 5])).filter
            (fun r => decide (r.score = s ∧ r.total = t))
          = (([] : List ScoreRecord) ++ [ScoreRecord.mk "a" 3 5]).filter
              (fun r => decide (r.score = s ∧ r.total = t)))
    ∧ ((List.replicate 15 (⟨"r", 1, 5⟩ : ScoreRecord)).foldl
          (fun a r => save_pure a r.name r.score r.total) []).length = 10
    ∧ List.Sorted scoreLe
        ((List.replicate 15 (⟨"r", 1, 5⟩ : ScoreRecord)).foldl
          (fun a r => save_pure a r.name r.score r.total) [])) :=
  save_score_spec FileState.absent [] "a" 3 5
    (List.replicate 15 (ScoreRecord.mk "r" 1 5)) (by decide) (by decide)

end Quizz
